import Mathlib

/-!
Shallow embedding of `src/checkin/checkin-session.js` (class
`AnyRouterSessionSignIn`), the check-in / token-reconciliation workflow.

JavaScript values that may be `undefined` are modelled as `Option`;
JS truthiness on numbers (`x || d`, `if (x)`) and strings is made explicit
through the `jsOrInt` / `jsOrStr` / `intTruthy` / `strTruthy` helpers.
Remote HTTP calls performed through the browser page are modelled by an
`Env` record of response oracles, and every outgoing call is recorded as a
`CallEvent` so that theorems can speak about which requests a run issues
and in which order.  Quota amounts are integers in minor units; the
"normalized" (dollar) amounts sent to the external ledger are rationals
(minor units divided by 500000), matching the `/ 500000` conversions in
the source.
-/

/-- JS `x || d` for an optional number: `undefined` and `0` are falsy. -/
def jsOrInt (x : Option Int) (d : Int) : Int :=
  match x with
  | none => d
  | some n => if n = 0 then d else n

/-- JS `x || d` for an optional string: `undefined` and `""` are falsy. -/
def jsOrStr (x : Option String) (d : String) : String :=
  match x with
  | none => d
  | some s => if s = "" then d else s

/-- JS truthiness of an optional number (`undefined` and `0` are falsy). -/
def intTruthy (x : Option Int) : Bool :=
  match x with
  | none => false
  | some n => n != 0

/-- JS truthiness of an optional string (`undefined` and `""` are falsy). -/
def strTruthy (x : Option String) : Bool :=
  match x with
  | none => false
  | some s => s != ""

/-- A remote token as returned by `GET /api/token/` (`getTokens`). -/
structure RemoteToken where
  id : Option Int
  key : Option String
  name : Option String
  unlimited_quota : Option Bool
  used_quota : Option Int
  remain_quota : Option Int
deriving DecidableEq, Repr

/-- One caller-supplied desired-token entry of `accountInfo.tokens`. -/
structure TokenConfig where
  id : Option Int
  is_deleted : Bool
  unlimited_quota : Bool
  remain_quota : Option Int
  supplement_quota : Option Int
  name : Option String
  key : Option String
  used_quota : Option Int
  is_sold : Option Bool
deriving DecidableEq, Repr

/-- The `accountInfo` argument of `signIn`. -/
structure AccountInfo where
  username : Option String
  _id : Option String
  tokens : Option (List TokenConfig)
deriving DecidableEq, Repr

/-- The `tokenConfig` argument of `createToken`. -/
structure CreateConfig where
  name : Option String
  unlimited_quota : Bool
  remain_quota : Option Int
deriving DecidableEq, Repr

/-- The JSON body sent by `createToken` (`POST /api/token/`). -/
structure CreateBody where
  name : String
  expired_time : Int
  model_limits_enabled : Bool
  model_limits : String
  allow_ips : String
  group : String
  unlimited_quota : Option Bool
  remain_quota : Option Int
deriving DecidableEq, Repr

/-- `createToken`'s request-body construction (source lines 226-241):
`name` defaults to `"dw"`, and exactly one of `unlimited_quota := true`
or `remain_quota` (defaulting to 500000) is set. -/
def createTokenBody (cfg : CreateConfig) : CreateBody :=
  let base : CreateBody :=
    { name := jsOrStr cfg.name "dw"
      expired_time := -1
      model_limits_enabled := false
      model_limits := ""
      allow_ips := ""
      group := "default"
      unlimited_quota := none
      remain_quota := none }
  if cfg.unlimited_quota then { base with unlimited_quota := some true }
  else { base with remain_quota := some (jsOrInt cfg.remain_quota 500000) }

/-- `incData` payload of an `updateKeyInfo` ledger call. -/
structure IncData where
  quota : ℚ
deriving DecidableEq

/-- `updateData` payload of an `updateKeyInfo` ledger call.
`remain_quota := none` models the JS `NaN` produced when the remote
update response carries no `remain_quota` field (`undefined / 500000`). -/
structure UpdateData where
  remain_quota : Option ℚ
  used_quota : ℚ
  quota_update_date : Int
deriving DecidableEq

/-- Argument record of an `updateKeyInfo` ledger call. -/
structure KeyInfoReq where
  key : Option String
  incData : Option IncData
  updateData : Option UpdateData
deriving DecidableEq

/-- One record of the bulk `addKeys` ledger upload. -/
structure KeyUploadRecord where
  key : Option String
  key_type : String
  is_sold : Bool
  quota : ℚ
  source_name : String
  account_id : Option String
deriving DecidableEq

/-- An entry of `pendingSellTokenNames` (source lines 622-625). -/
structure PendingSell where
  name : String
  remain_quota : Option Int
deriving DecidableEq, Repr

/-- An outgoing remote or ledger call, as recorded by the model. -/
inductive CallEvent where
  | signInCall
  | fetchUser
  | transfer (quota : Int)
  | listTokens
  | createTok (body : CreateBody)
  | deleteTok (id : Option Int)
  | updateTok (record : RemoteToken)
  | addKeysCall (records : List KeyUploadRecord)
  | updateKeyInfoCall (req : KeyInfoReq)
deriving DecidableEq

/-- Outcome of one `page.evaluate` fetch: either the caught error message
or the HTTP status plus parsed JSON body. -/
inductive FetchOutcome (α : Type) where
  | err (msg : String)
  | ok (status : Int) (data : α)
deriving DecidableEq

/-- Parsed body of the sign-in response. -/
structure SignInData where
  ret : Option Int
  code : Option Int
  success : Bool
  msg : Option String
  message : Option String
deriving DecidableEq

/-- The picked fields of a successful `/api/user/self` payload
(the in-page fetch returns `null` unless `data.success && data.data`). -/
structure RawUser where
  username : Option String
  email : Option String
  quota : Int
  used_quota : Int
  aff_code : Option String
  aff_quota : Option Int
  status : Option Int
deriving DecidableEq

/-- Parsed body of the token-list response. -/
structure TokensData where
  success : Bool
  data : Option (List RemoteToken)
deriving DecidableEq

/-- Parsed body of a create/delete response. -/
structure SimpleData where
  success : Bool
  message : Option String
deriving DecidableEq

/-- Parsed body of a token-update (`PUT /api/token/`) response. -/
structure UpdateRespData where
  success : Bool
  message : Option String
  data : Option RemoteToken
deriving DecidableEq

/-- Response oracles for every remote endpoint touched by `signIn`.
`tokensResp` is indexed by how many token-list fetches happened before
(the source fetches at most twice).  `transferResp` and the two ledger
results are consumed only by logging in the source, so the model keeps
them for fidelity but never branches on them. -/
structure Env where
  signInResp : FetchOutcome SignInData
  userInfoResp : Option RawUser
  transferResp : Int → Bool
  tokensResp : Nat → FetchOutcome TokensData
  createResp : CreateBody → FetchOutcome SimpleData
  deleteResp : Option Int → FetchOutcome SimpleData
  updateResp : RemoteToken → FetchOutcome UpdateRespData
  addKeysResp : List KeyUploadRecord → Bool
  keyInfoResp : KeyInfoReq → Bool
  now : Int

/-- `getTokens` (source lines 113-158): any caught error, non-200 status
or missing success marker yields the empty list; on success the `data`
array (defaulting to `[]`) is returned. -/
def getTokensModel (o : FetchOutcome TokensData) : List RemoteToken :=
  match o with
  | .err _ => []
  | .ok status d => if status = 200 ∧ d.success then d.data.getD [] else []

/-- `createToken` (source lines 221-287): builds the request body and
reports success exactly when the fetch did not throw, the status is 200
and the body carries `success`. -/
def createTokenModel (env : Env) (cfg : CreateConfig) : Bool × CallEvent :=
  let body := createTokenBody cfg
  (match env.createResp body with
   | .err _ => false
   | .ok status d => decide (status = 200) && d.success,
   .createTok body)

/-- `deleteToken` (source lines 167-212). -/
def deleteTokenModel (env : Env) (id : Option Int) : Bool × CallEvent :=
  (match env.deleteResp id with
   | .err _ => false
   | .ok status d => decide (status = 200) && d.success,
   .deleteTok id)

/-- `updateToken` (source lines 296-343): sends the full token record and
returns `result.data.data` on success, `null` otherwise. -/
def updateTokenModel (env : Env) (record : RemoteToken) :
    Option RemoteToken × CallEvent :=
  (match env.updateResp record with
   | .err _ => none
   | .ok status d => if status = 200 ∧ d.success then d.data else none,
   .updateTok record)

/-- JS `s.startsWith(pre)`, modelled characterwise (equivalent to
`String.startsWith`, but kernel-reducible). -/
def startsWithModel (s pre : String) : Bool :=
  pre.data.isPrefixOf s.data

/-- Accumulator of the deletion/creation pass over `accountInfo.tokens`
(source lines 600-631): the pending sale uploads collected so far and
the calls issued so far. -/
structure ManageOut where
  pending : List PendingSell
  events : List CallEvent
deriving DecidableEq

/-- One iteration of the deletion/creation loop (source lines 605-628):
an entry with a (truthy) `id` and `is_deleted` is deleted; an entry with
no `id` is created, and, when creation succeeds and its name starts with
the sale marker `"出售_"`, it is recorded as a pending sale upload. -/
def manageStep (env : Env) (acc : ManageOut) (cfg : TokenConfig) : ManageOut :=
  if intTruthy cfg.id ∧ cfg.is_deleted then
    { acc with events := acc.events ++ [(deleteTokenModel env cfg.id).2] }
  else if ¬ intTruthy cfg.id then
    let created := createTokenModel env ⟨cfg.name, cfg.unlimited_quota, cfg.remain_quota⟩
    let acc1 : ManageOut := { acc with events := acc.events ++ [created.2] }
    if created.1 ∧ strTruthy cfg.name ∧ startsWithModel (cfg.name.getD "") "出售_" then
      { acc1 with pending := acc1.pending ++ [⟨cfg.name.getD "", cfg.remain_quota⟩] }
    else acc1
  else acc

/-- The deletion/creation pass: the loop of source lines 605-628
starting from no pending uploads and no calls. -/
def managePass (env : Env) (cfgs : List TokenConfig) : ManageOut :=
  cfgs.foldl (manageStep env) ⟨[], []⟩

/-- Eligibility filter of the supplement pass (source lines 647-649):
`t.supplement_quota && t.supplement_quota > 0`. -/
def suppEligible (t : TokenConfig) : Bool :=
  intTruthy t.supplement_quota && decide (t.supplement_quota.getD 0 > 0)

/-- Replace the first list element satisfying `p` by its image under `f`
(the JS loop mutates only the object returned by `Array.find`). -/
def replaceFirst (p : RemoteToken → Bool) (f : RemoteToken → RemoteToken) :
    List RemoteToken → List RemoteToken
  | [] => []
  | t :: ts => if p t then f t :: ts else t :: replaceFirst p f ts

/-- State threaded through the supplement loop: the (mutated) remote
token list and the calls issued so far. -/
structure SupplementOut where
  tokens : List RemoteToken
  events : List CallEvent
deriving DecidableEq

/-- One iteration of the supplement loop (source lines 654-706): match
the config entry to a remote token by `id`; send a full-record update
with `remain_quota` increased by the supplement; on success mutate the
local copy and, when the config entry carries a (truthy) `key`, mirror
the result to the ledger via `updateKeyInfo` with an incremental
`incData.quota` and absolute `updateData` quotas (all divided by
500000).  The loop only runs over entries passing `suppEligible`, so
`cfg.supplement_quota` is a positive integer here. -/
def supplementStep (env : Env) (acc : SupplementOut) (cfg : TokenConfig) :
    SupplementOut :=
  match acc.tokens.find? (fun t => t.id == cfg.id) with
  | some matched =>
    let supp := cfg.supplement_quota.getD 0
    let newRemain := jsOrInt matched.remain_quota 0 + supp
    let updated : RemoteToken := { matched with remain_quota := some newRemain }
    let upd := updateTokenModel env updated
    (match upd.1 with
     | some res =>
       let tokens1 := replaceFirst (fun t => t.id == cfg.id)
         (fun t => { t with remain_quota := res.remain_quota }) acc.tokens
       let ledger : List CallEvent :=
         if strTruthy cfg.key then
           [CallEvent.updateKeyInfoCall
             { key := cfg.key
               incData := some { quota := (supp : ℚ) / 500000 }
               updateData := some
                 { remain_quota := res.remain_quota.map (fun q => (q : ℚ) / 500000)
                   used_quota := (jsOrInt res.used_quota 0 : ℚ) / 500000
                   quota_update_date := env.now } }]
         else []
       { tokens := tokens1, events := acc.events ++ [upd.2] ++ ledger }
     | none => { acc with events := acc.events ++ [upd.2] })
  | none => acc

/-- The supplement pass (source lines 646-709): filter the desired
entries to those with a positive `supplement_quota`, then run the loop. -/
def supplementPass (env : Env) (cfgs : List TokenConfig)
    (tokens : List RemoteToken) : SupplementOut :=
  (cfgs.filter suppEligible).foldl (supplementStep env) ⟨tokens, []⟩

/-- The `keysToUpload` list of the sale-upload resolution (source lines
718-732): each pending sale name is matched against the refreshed token
list by name; matches with a truthy `key` become a ledger record, other
pending entries are skipped. -/
def saleRecordOf (acct : AccountInfo) (tokens : List RemoteToken)
    (p : PendingSell) : Option KeyUploadRecord :=
  match tokens.find? (fun t => t.name == some p.name) with
  | some m =>
    if strTruthy m.key then
      some { key := m.key
             key_type := "anyrouter"
             is_sold := false
             quota := if intTruthy p.remain_quota
               then ((p.remain_quota.getD 0 : Int) : ℚ) / 500000 else 0
             source_name := jsOrStr acct.username "" ++ "&" ++ p.name
             account_id := acct._id }
    else none
  | none => none

/-- See `saleRecordOf` for the per-pending loop body. -/
def saleUploadKeys (acct : AccountInfo) (tokens : List RemoteToken)
    (pending : List PendingSell) : List KeyUploadRecord :=
  pending.filterMap (saleRecordOf acct tokens)

/-- The sale-upload resolution (source lines 712-742): when pending sale
names were recorded, build `keysToUpload` and, when non-empty, submit
them in one bulk `addKeys` call.  A pending list can only be non-empty
when `accountInfo` was supplied, so the `none` fallback is unreachable
in the composed workflow. -/
def saleUploadStep (acct : Option AccountInfo) (tokens : List RemoteToken)
    (pending : List PendingSell) : List CallEvent :=
  if pending.length > 0 then
    let keys := saleUploadKeys (acct.getD ⟨none, none, none⟩) tokens pending
    if keys.length > 0 then [CallEvent.addKeysCall keys] else []
  else []

/-- Sale-token filter of the drift-sync pass (source lines 747-749):
`((t.name && t.name.startsWith('出售_')) || t.is_sold === true) && t.key`. -/
def sellTokenFilter (t : TokenConfig) : Bool :=
  ((strTruthy t.name && startsWithModel (t.name.getD "") "出售_")
    || t.is_sold == some true) && strTruthy t.key

/-- Per-entry body of the drift-sync loop (source lines 751-793): match
the config entry to a current token by `key` or `id`; when the used
quota drifted or the entry is marked sold, emit one absolute
`updateKeyInfo` overwrite of the remaining/used quota (divided by
500000) and a sync timestamp; otherwise emit nothing. -/
def driftEmit (env : Env) (tokens : List RemoteToken) (cfg : TokenConfig) :
    Option CallEvent :=
  match tokens.find? (fun t => t.key == cfg.key || t.id == cfg.id) with
  | some cur =>
    let oldUsed := jsOrInt cfg.used_quota 0
    let newUsed := jsOrInt cur.used_quota 0
    let isSold := cfg.is_sold == some true
    if newUsed ≠ oldUsed ∨ isSold = true then
      some (CallEvent.updateKeyInfoCall
        { key := cfg.key
          incData := none
          updateData := some
            { remain_quota := some ((jsOrInt cur.remain_quota 0 : ℚ) / 500000)
              used_quota := (newUsed : ℚ) / 500000
              quota_update_date := env.now } })
    else none
  | none => none

/-- The drift-sync pass (source lines 745-794): runs only when
`accountInfo.tokens` is an array, over the entries passing
`sellTokenFilter`. -/
def driftSyncPass (env : Env) (acct : Option AccountInfo)
    (tokens : List RemoteToken) : List CallEvent :=
  match acct with
  | some a =>
    match a.tokens with
    | some cfgs => (cfgs.filter sellTokenFilter).filterMap (driftEmit env tokens)
    | none => []
  | none => []

/-- An entry of the filtered token list attached to `userInfo.tokens`
(source lines 798-806). -/
structure NormalToken where
  id : Option Int
  key : Option String
  name : Option String
  unlimited_quota : Option Bool
  used_quota : Option Int
  remain_quota : Option Int
  supplement_quota : Int
deriving DecidableEq, Repr

/-- The per-token projection of the final normalization (source lines
798-806): keep id/key/name/quota fields and reset `supplement_quota`
to 0. -/
def normalizeToken (t : RemoteToken) : NormalToken :=
  { id := t.id
    key := t.key
    name := t.name
    unlimited_quota := t.unlimited_quota
    used_quota := t.used_quota
    remain_quota := t.remain_quota
    supplement_quota := 0 }

/-- Result of the token-reconciliation section of `signIn` (source lines
596-808): the remote token list as last observed, the calls issued, and
the normalized list attached to `userInfo.tokens` (absent when the final
token list is empty). -/
structure ReconcileOut where
  tokens : List RemoteToken
  events : List CallEvent
  tokensField : Option (List NormalToken)

/-- The token-reconciliation section of `signIn` (source lines 596-808),
in source order: the deletion/creation pass over `accountInfo.tokens`
(skipped, like the supplement and drift passes, when `accountInfo` or its
`tokens` array is absent — modelled by the empty config list, which makes
every pass a no-op exactly as the JS guards do), one token-list fetch,
then either the bootstrap pass (empty list: one unconditional
unlimited-quota create and, when it succeeds, a re-fetch) or the
supplement pass (non-empty list), then the sale-upload resolution and
the drift-sync pass against the resulting list, and finally the
normalization attached to the snapshot. -/
def tokenReconcile (env : Env) (acct : Option AccountInfo) : ReconcileOut :=
  let cfgs := (acct.bind (·.tokens)).getD []
  let m := managePass env cfgs
  let ts0 := getTokensModel (env.tokensResp 0)
  let step2 : List RemoteToken × List CallEvent :=
    if ts0.length = 0 then
      let boot := createTokenModel env ⟨none, true, none⟩
      if boot.1 then
        (getTokensModel (env.tokensResp 1), [boot.2, CallEvent.listTokens])
      else (ts0, [boot.2])
    else
      let s := supplementPass env cfgs ts0
      (s.tokens, s.events)
  let tokens1 := step2.1
  let ev2 := saleUploadStep acct tokens1 m.pending
  let ev3 := driftSyncPass env acct tokens1
  { tokens := tokens1
    events := m.events ++ [CallEvent.listTokens] ++ step2.2 ++ ev2 ++ ev3
    tokensField :=
      if tokens1.length > 0 then some (tokens1.map normalizeToken) else none }

/-- The in-memory user snapshot (source lines 517-525), extended with the
`tokens` field attached at the end of a successful run. -/
structure UserInfo where
  username : Option String
  email : Option String
  quota : Int
  usedQuota : Int
  affCode : Option String
  affQuota : Int
  status : Option Int
  tokens : Option (List NormalToken)
deriving DecidableEq, Repr

/-- Building the snapshot from the raw `/api/user/self` payload (source
lines 516-525): `aff_quota` defaults to 0, no tokens attached yet. -/
def mkUserInfo (r : RawUser) : UserInfo :=
  { username := r.username
    email := r.email
    quota := r.quota
    usedQuota := r.used_quota
    affCode := r.aff_code
    affQuota := jsOrInt r.aff_quota 0
    status := r.status
    tokens := none }

/-- The application-level sign-in success marker (source line 498):
`data.ret === 1 || data.code === 0 || data.success`. -/
def signInMarker (d : SignInData) : Bool :=
  d.ret == some 1 || d.code == some 0 || d.success

/-- The reward-transfer step (source lines 550-594): when the snapshot's
affiliate reward quota is truthy and positive, one `aff_transfer` call is
attempted and — regardless of its outcome, which the source only logs —
the reward is added to the in-memory quota and the reward field zeroed;
otherwise nothing happens. -/
def rewardStep (_env : Env) (u : UserInfo) : UserInfo × List CallEvent :=
  if u.affQuota ≠ 0 ∧ u.affQuota > 0 then
    ({ u with quota := u.quota + u.affQuota, affQuota := 0 },
     [CallEvent.transfer u.affQuota])
  else (u, [])

/-- The run result returned by `signIn`. -/
structure SignInResult where
  success : Bool
  error : Option String
  userInfo : Option UserInfo
deriving DecidableEq, Repr

/-- The `signIn` orchestrator (source lines 406-833): sign-in call, then
on HTTP 200 with the application-level marker fetch the user snapshot;
a banned snapshot (status 2) short-circuits with success; otherwise the
reward-transfer step, the token reconciliation and the normalization run
in order.  Any other sign-in outcome fails with the caught error, the
remote-provided message (with generic fallback), or `HTTP <status>`. -/
def signInModel (env : Env) (acct : Option AccountInfo) :
    SignInResult × List CallEvent :=
  match env.signInResp with
  | .err e =>
    ({ success := false, error := some e, userInfo := none },
     [CallEvent.signInCall])
  | .ok status d =>
    if status = 200 then
      if signInMarker d then
        match env.userInfoResp with
        | none =>
          ({ success := true, error := none, userInfo := none },
           [CallEvent.signInCall, CallEvent.fetchUser])
        | some raw =>
          let u0 := mkUserInfo raw
          if u0.status = some 2 then
            ({ success := true, error := none, userInfo := some u0 },
             [CallEvent.signInCall, CallEvent.fetchUser])
          else
            let rw := rewardStep env u0
            let r := tokenReconcile env acct
            ({ success := true, error := none,
               userInfo := some { rw.1 with tokens := r.tokensField } },
             [CallEvent.signInCall, CallEvent.fetchUser] ++ rw.2 ++ r.events)
      else
        ({ success := false,
           error := some (jsOrStr d.msg (jsOrStr d.message "未知错误")),
           userInfo := none },
         [CallEvent.signInCall])
    else
      ({ success := false, error := some ("HTTP " ++ toString status),
         userInfo := none },
       [CallEvent.signInCall])

/-- A baseline environment: failing sign-in oracle, no user payload,
empty token-list fetches, succeeding create/delete, an update oracle
that echoes the sent record (the remote confirms exactly the requested
state), and succeeding ledger calls. -/
def envBase : Env :=
  { signInResp := .err ""
    userInfoResp := none
    transferResp := fun _ => true
    tokensResp := fun _ => .err ""
    createResp := fun _ => .ok 200 ⟨true, none⟩
    deleteResp := fun _ => .ok 200 ⟨true, none⟩
    updateResp := fun t => .ok 200 ⟨true, none, some t⟩
    addKeysResp := fun _ => true
    keyInfoResp := fun _ => true
    now := 0 }

/-- The remote token of the supplement scenario: id 7, remaining quota
100000. -/
def tokenSc : RemoteToken :=
  { id := some 7, key := none, name := none, unlimited_quota := none
    used_quota := none, remain_quota := some 100000 }

/-- The desired entry of the supplement scenario exactly as the claim
states it: id 7, supplement 50000, and no other fields. -/
def cfgSc : TokenConfig :=
  { id := some 7, is_deleted := false, unlimited_quota := false
    remain_quota := none, supplement_quota := some 50000, name := none
    key := none, used_quota := none, is_sold := none }

/-- The same desired entry additionally carrying ledger key material. -/
def cfgScKey : TokenConfig :=
  { cfgSc with key := some "sk-demo" }

/-- Claim C1 (counterexample): for the remote token with id 7 and
remaining quota 100000 and the desired entry with id 7 and supplement
quota 50000 exactly as the claim states it — in particular with no `key`
field — the supplement pass does issue the single full-record update with
remaining quota 150000, but issues zero `updateKeyInfo` ledger calls even
though the update succeeded, refuting the claimed ledger mirror: the
source guards the mirror behind `if (configToken.key)`. -/
theorem supplement_no_key_skips_ledger_cex :
    (supplementPass envBase [cfgSc] [tokenSc]).events =
      [CallEvent.updateTok { tokenSc with remain_quota := some 150000 }] := by
  decide

/-- Claim C1 (amended): for the remote token with id 7 and remaining
quota 100000 and the desired entry with id 7 and supplement quota 50000,
the supplement pass issues exactly one full-record update call with
remaining quota 150000 (current remaining quota plus the supplement
delta), and — when the entry also carries ledger key material — on update
success it mirrors the result to the external ledger via exactly one
`updateKeyInfo` call with incremental quota 1/10 (the supplement delta
divided by 500000) and absolute remaining quota 3/10 (the new remaining
quota 150000 divided by 500000). -/
theorem supplement_scenario_update_and_ledger :
    (supplementPass envBase [cfgScKey] [tokenSc]).events =
      [CallEvent.updateTok { tokenSc with remain_quota := some 150000 },
       CallEvent.updateKeyInfoCall
         { key := some "sk-demo"
           incData := some { quota := 1 / 10 }
           updateData := some
             { remain_quota := some (3 / 10)
               used_quota := 0
               quota_update_date := 0 } }] := by
  norm_num [supplementPass, supplementStep, suppEligible, updateTokenModel,
    replaceFirst, envBase, cfgScKey, cfgSc, tokenSc, jsOrInt, intTruthy,
    strTruthy, List.filter, List.foldl, List.find?]
  decide

/-- Claim C4: for every token-creation config the request body carries
exactly one of `unlimited_quota := true` or an integer `remain_quota`
(never both), and the unspecified-config body defaults to name "dw" and
a bounded quota of 500000. -/
theorem createToken_body_exclusive_and_defaults :
    (∀ cfg : CreateConfig,
      ((createTokenBody cfg).unlimited_quota = some true ∧
        (createTokenBody cfg).remain_quota = none) ∨
      ((createTokenBody cfg).unlimited_quota = none ∧
        (createTokenBody cfg).remain_quota =
          some (jsOrInt cfg.remain_quota 500000))) ∧
    createTokenBody ⟨none, false, none⟩ =
      { name := "dw", expired_time := -1, model_limits_enabled := false
        model_limits := "", allow_ips := "", group := "default"
        unlimited_quota := none, remain_quota := some 500000 } := by
  constructor
  · intro cfg
    cases h : cfg.unlimited_quota
    · right
      simp [createTokenBody, h]
    · left
      simp [createTokenBody, h]
  · rfl

/-- Claim C6: a sign-in fetch error, a non-200 status, or a 200 body
without the application-level success marker each make `signIn` return
failure with, respectively, the caught error, the `HTTP <status>`
fallback, or the remote-provided message with generic fallback — and the
run trace holds the sign-in call alone: no user-snapshot fetch, no
transfer, no token or ledger calls. -/
theorem signIn_failure_short_circuits :
    ∀ (env : Env) (acct : Option AccountInfo),
      (∀ e, env.signInResp = .err e →
        signInModel env acct =
          ({ success := false, error := some e, userInfo := none },
           [CallEvent.signInCall])) ∧
      (∀ s d, env.signInResp = .ok s d → s ≠ 200 →
        signInModel env acct =
          ({ success := false, error := some ("HTTP " ++ toString s),
             userInfo := none },
           [CallEvent.signInCall])) ∧
      (∀ d, env.signInResp = .ok 200 d → signInMarker d = false →
        signInModel env acct =
          ({ success := false,
             error := some (jsOrStr d.msg (jsOrStr d.message "未知错误")),
             userInfo := none },
           [CallEvent.signInCall])) := by
  intro env acct
  refine ⟨?_, ?_, ?_⟩
  · intro e h
    simp [signInModel, h]
  · intro s d h hs
    simp [signInModel, h, hs]
  · intro d h hm
    simp [signInModel, h, hm]

/-- A sign-in environment whose sign-in fetch throws. -/
def envNetFail : Env := { envBase with signInResp := .err "network down" }

/-- Witness for C6 at a concrete erroring environment. -/
theorem signIn_failure_short_circuits_witness :
    signInModel envNetFail none =
      ({ success := false, error := some "network down", userInfo := none },
       [CallEvent.signInCall]) :=
  (signIn_failure_short_circuits envNetFail none).1 "network down" rfl

/-- Claim C5: when the user snapshot fetched after a successful sign-in
is banned (status 2), `signIn` returns success with that snapshot
immediately; the trace holds only the sign-in call and the snapshot
fetch — no token-list fetch, no create/delete/update and no ledger
calls. -/
theorem banned_short_circuit :
    ∀ (env : Env) (acct : Option AccountInfo) (d : SignInData) (raw : RawUser),
      env.signInResp = .ok 200 d → signInMarker d = true →
      env.userInfoResp = some raw → raw.status = some 2 →
      signInModel env acct =
        ({ success := true, error := none, userInfo := some (mkUserInfo raw) },
         [CallEvent.signInCall, CallEvent.fetchUser]) := by
  intro env acct d raw h hm hu hb
  simp [signInModel, h, hm, hu, mkUserInfo, hb]

/-- A sign-in body carrying the `ret == 1` success marker. -/
def signInOkData : SignInData :=
  { ret := some 1, code := none, success := false, msg := none, message := none }

/-- A banned raw user payload (status 2). -/
def rawBanned : RawUser :=
  { username := some "u", email := none, quota := 100, used_quota := 0
    aff_code := none, aff_quota := some 5, status := some 2 }

/-- An environment whose sign-in succeeds and whose user is banned. -/
def envBanned : Env :=
  { envBase with
    signInResp := .ok 200 signInOkData
    userInfoResp := some rawBanned }

/-- Witness for C5 at a concrete banned-account environment. -/
theorem banned_short_circuit_witness :
    signInModel envBanned none =
      ({ success := true, error := none, userInfo := some (mkUserInfo rawBanned) },
       [CallEvent.signInCall, CallEvent.fetchUser]) :=
  banned_short_circuit envBanned none signInOkData rawBanned rfl rfl rfl rfl

/-- Claim C7: with a positive affiliate reward the reward step issues
exactly one transfer call and — regardless of the transfer outcome,
which the step never consults — adds the reward to the in-memory quota
and zeroes the reward field; with a zero (or absent, which decodes to
zero) reward it issues no call and leaves the snapshot unchanged. -/
theorem reward_transfer_optimistic :
    ∀ (env : Env) (u : UserInfo),
      (u.affQuota > 0 →
        rewardStep env u =
          ({ u with quota := u.quota + u.affQuota, affQuota := 0 },
           [CallEvent.transfer u.affQuota])) ∧
      (u.affQuota = 0 → rewardStep env u = (u, [])) := by
  intro env u
  constructor
  · intro h
    have h0 : u.affQuota ≠ 0 := by omega
    simp [rewardStep, h, h0]
  · intro h
    simp [rewardStep, h]

/-- A snapshot with a pending affiliate reward of 5. -/
def userWithReward : UserInfo :=
  { username := some "u", email := none, quota := 100, usedQuota := 0
    affCode := none, affQuota := 5, status := some 1, tokens := none }

/-- Witness for C7 at a concrete snapshot with reward 5. -/
theorem reward_transfer_optimistic_witness :
    rewardStep envBase userWithReward =
      ({ userWithReward with quota := 105, affQuota := 0 },
       [CallEvent.transfer 5]) :=
  (reward_transfer_optimistic envBase userWithReward).1 (by decide)

/-- Claim C2: the drift-sync pass runs exactly over the desired entries
tagged as sale tokens (name convention or `is_sold === true`) that carry
key material, and for such an entry matched to a current remote token it
emits an `updateKeyInfo` ledger call if and only if the recorded used
quota differs from the matched token's used quota or the entry is marked
sold; unchanged, non-sold entries emit nothing. -/
theorem drift_sync_fires_iff :
    ∀ (env : Env) (a : AccountInfo) (cfgs : List TokenConfig)
      (tokens : List RemoteToken),
      a.tokens = some cfgs →
      driftSyncPass env (some a) tokens =
        (cfgs.filter sellTokenFilter).filterMap (driftEmit env tokens) ∧
      ∀ cfg, sellTokenFilter cfg = true →
        ∀ cur,
          tokens.find? (fun t => t.key == cfg.key || t.id == cfg.id) = some cur →
          ((driftEmit env tokens cfg).isSome ↔
            (jsOrInt cfg.used_quota 0 ≠ jsOrInt cur.used_quota 0 ∨
             cfg.is_sold = some true)) := by
  intro env a cfgs tokens ha
  constructor
  · simp [driftSyncPass, ha]
  · intro cfg _ cur hcur
    simp only [driftEmit, hcur]
    by_cases hd :
        jsOrInt cur.used_quota 0 ≠ jsOrInt cfg.used_quota 0 ∨
          (cfg.is_sold == some true) = true
    · rw [if_pos hd]
      simp only [Option.isSome_some, true_iff]
      rcases hd with hd | hd
      · exact Or.inl (fun h => hd h.symm)
      · exact Or.inr (by simpa using hd)
    · rw [if_neg hd]
      push_neg at hd
      simp only [Option.isSome_none, Bool.false_eq_true, false_iff]
      push_neg
      exact ⟨hd.1.symm, by simpa using hd.2⟩

/-- A sale-tagged desired entry with key material and recorded used
quota 0. -/
def cfgDrift : TokenConfig :=
  { id := none, is_deleted := false, unlimited_quota := false
    remain_quota := none, supplement_quota := none, name := some "出售_x"
    key := some "k1", used_quota := some 0, is_sold := none }

/-- The matching current remote token, whose used quota drifted to 5. -/
def tokDrift : RemoteToken :=
  { id := none, key := some "k1", name := some "出售_x"
    unlimited_quota := none, used_quota := some 5, remain_quota := some 10 }

/-- The account configuration holding the drift entry. -/
def acctDrift : AccountInfo :=
  { username := none, _id := none, tokens := some [cfgDrift] }

/-- Witness for C2: the drifted sale entry makes the drift pass emit a
ledger call. -/
theorem drift_sync_fires_iff_witness :
    (driftEmit envBase [tokDrift] cfgDrift).isSome = true :=
  ((drift_sync_fires_iff envBase acctDrift [cfgDrift] [tokDrift] rfl).2
    cfgDrift (by decide) tokDrift (by decide)).mpr (Or.inl (by decide))

/-- The pending-sale record produced by one creation-pass iteration
(source lines 612-627): present exactly when the entry has no (truthy)
id, its creation succeeded, and its (truthy) name carries the sale
marker. -/
def pendOf (env : Env) (cfg : TokenConfig) : Option PendingSell :=
  if ¬ intTruthy cfg.id ∧
      (createTokenModel env ⟨cfg.name, cfg.unlimited_quota, cfg.remain_quota⟩).1 ∧
      strTruthy cfg.name ∧ startsWithModel (cfg.name.getD "") "出售_" then
    some ⟨cfg.name.getD "", cfg.remain_quota⟩
  else none

lemma manageStep_pending (env : Env) (acc : ManageOut) (cfg : TokenConfig) :
    (manageStep env acc cfg).pending = acc.pending ++ (pendOf env cfg).toList := by
  by_cases h1 : intTruthy cfg.id ∧ cfg.is_deleted
  · simp [manageStep, pendOf, h1, h1.1]
  · by_cases h2 : intTruthy cfg.id = true
    · have h3 : ¬ (¬ intTruthy cfg.id = true ∧
          (createTokenModel env ⟨cfg.name, cfg.unlimited_quota, cfg.remain_quota⟩).1 = true ∧
          strTruthy cfg.name = true ∧
          startsWithModel (cfg.name.getD "") "出售_" = true) := by
        intro h
        exact h.1 h2
      have h5 : cfg.is_deleted = false := by
        cases hd : cfg.is_deleted
        · rfl
        · exact absurd ⟨h2, hd⟩ h1
      simp [manageStep, pendOf, h1, h2, h3, h5]
    · by_cases h4 : (createTokenModel env ⟨cfg.name, cfg.unlimited_quota, cfg.remain_quota⟩).1 ∧
          strTruthy cfg.name ∧ startsWithModel (cfg.name.getD "") "出售_"
      · simp [manageStep, pendOf, h1, h2, h4]
      · simp [manageStep, pendOf, h1, h2, h4]

lemma managePass_pending_aux (env : Env) :
    ∀ (cfgs : List TokenConfig) (acc : ManageOut),
      (cfgs.foldl (manageStep env) acc).pending =
        acc.pending ++ cfgs.filterMap (pendOf env) := by
  intro cfgs
  induction cfgs with
  | nil => intro acc; simp
  | cons c cs ih =>
    intro acc
    rw [List.foldl_cons, ih, List.filterMap_cons, manageStep_pending]
    cases pendOf env c <;> simp

/-- A desired entry named with the spec's anglicized marker "sold_". -/
def cfgSold : TokenConfig :=
  { id := none, is_deleted := false, unlimited_quota := false
    remain_quota := some 100000, supplement_quota := none
    name := some "sold_a", key := none, used_quota := none, is_sold := none }

/-- Claim C3 (counterexample): an entry named "sold_a" — whose name does
start with the claimed marker "sold_" — is created successfully and yet
is NOT recorded as a pending sale upload: the marker the source tests is
the Chinese "出售_", not "sold_". -/
theorem sale_marker_not_english_cex :
    startsWithModel "sold_a" "sold_" = true ∧
    (createTokenModel envBase ⟨some "sold_a", false, some 100000⟩).1 = true ∧
    (managePass envBase [cfgSold]).pending = [] := by
  decide

/-- Claim C3 (amended, with the sale marker corrected from "sold_" to
the source's "出售_"): a desired entry with no remote id whose creation
succeeds is recorded as a pending sale exactly when its (truthy) name
starts with "出售_" (the `pendOf` characterization); the recorded
pending sales are resolved against the refreshed token list in one
single bulk `addKeys` call whose records are exactly the name-matches
carrying key material, each built as key, fixed type tag "anyrouter",
not-yet-sold flag, quota in normalized units, the "username&name" source
label and the owning account id; a name-match with no key material is
skipped. -/
theorem sale_recording_and_bulk_upload :
    ∀ (env : Env) (cfgs : List TokenConfig),
      (managePass env cfgs).pending = cfgs.filterMap (pendOf env) ∧
      ∀ (a : AccountInfo) (tokens : List RemoteToken)
        (pending : List PendingSell),
        (saleUploadStep (some a) tokens pending =
          if (saleUploadKeys a tokens pending).length > 0 then
            [CallEvent.addKeysCall (saleUploadKeys a tokens pending)]
          else []) ∧
        (∀ r, r ∈ saleUploadKeys a tokens pending ↔
          ∃ p ∈ pending, saleRecordOf a tokens p = some r) ∧
        ∀ p m, tokens.find? (fun t => t.name == some p.name) = some m →
          (strTruthy m.key = true →
            saleRecordOf a tokens p =
              some { key := m.key
                     key_type := "anyrouter"
                     is_sold := false
                     quota := if intTruthy p.remain_quota
                       then ((p.remain_quota.getD 0 : Int) : ℚ) / 500000 else 0
                     source_name := jsOrStr a.username "" ++ "&" ++ p.name
                     account_id := a._id }) ∧
          (strTruthy m.key = false → saleRecordOf a tokens p = none) := by
  intro env cfgs
  constructor
  · rw [managePass, managePass_pending_aux]
    simp
  · intro a tokens pending
    refine ⟨?_, ?_, ?_⟩
    · cases pending with
      | nil => simp [saleUploadStep, saleUploadKeys]
      | cons p ps => simp [saleUploadStep, saleUploadKeys]
    · intro r
      simp [saleUploadKeys, List.mem_filterMap]
    · intro p m hm
      constructor
      · intro hk
        simp [saleRecordOf, hm, hk]
      · intro hk
        simp [saleRecordOf, hm, hk]

/-- A sale-named desired entry with no remote id. -/
def cfgSell : TokenConfig :=
  { id := none, is_deleted := false, unlimited_quota := false
    remain_quota := some 100000, supplement_quota := none
    name := some "出售_x", key := none, used_quota := none, is_sold := none }

/-- The refreshed remote token matching the sale name, carrying key
material. -/
def tokSell : RemoteToken :=
  { id := some 1, key := some "sk-1", name := some "出售_x"
    unlimited_quota := none, used_quota := none, remain_quota := some 100000 }

/-- The account owning the sale entry. -/
def acctSell : AccountInfo :=
  { username := some "alice", _id := some "acc1", tokens := some [cfgSell] }

/-- The pending sale recorded for `cfgSell`. -/
def pendSell : PendingSell := ⟨"出售_x", some 100000⟩

/-- Witness for C3: the sale-named entry is recorded as pending, and its
name-match with key material resolves to the expected ledger record. -/
theorem sale_recording_and_bulk_upload_witness :
    (managePass envBase [cfgSell]).pending = [pendSell] ∧
    saleRecordOf acctSell [tokSell] pendSell =
      some { key := some "sk-1"
             key_type := "anyrouter"
             is_sold := false
             quota := ((100000 : Int) : ℚ) / 500000
             source_name := "alice&出售_x"
             account_id := some "acc1" } := by
  constructor
  · rw [(sale_recording_and_bulk_upload envBase [cfgSell]).1]
    decide
  · have h :=
      (((sale_recording_and_bulk_upload envBase [cfgSell]).2
        acctSell [tokSell] [pendSell]).2.2 pendSell tokSell (by decide)).1
        (by decide)
    rw [h]
    norm_num [jsOrStr, intTruthy, pendSell, acctSell]
    decide

/-- An active (non-banned) raw user payload with no pending reward. -/
def rawActive : RawUser :=
  { username := some "u", email := none, quota := 100, used_quota := 0
    aff_code := none, aff_quota := none, status := some 1 }

/-- An account whose desired-token list is empty. -/
def acctEmpty : AccountInfo :=
  { username := some "u", _id := none, tokens := some [] }

/-- An environment with a successful sign-in, an active user, an empty
remote token list, and a FAILING create-token endpoint. -/
def envBootFail : Env :=
  { envBase with
    signInResp := .ok 200 signInOkData
    userInfoResp := some rawActive
    tokensResp := fun _ => .ok 200 ⟨true, some []⟩
    createResp := fun _ => .ok 200 ⟨false, none⟩ }

/-- Claim C9 (counterexample): with an empty remote token list and an
empty desired list, when the bootstrap creation fails the run issues the
one bootstrap create call but does NOT re-fetch the token list (a single
list call in the whole trace), refuting the claim's unconditional
"and then re-fetches". -/
theorem bootstrap_no_refetch_cex :
    (signInModel envBootFail (some acctEmpty)).2 =
      [CallEvent.signInCall, CallEvent.fetchUser, CallEvent.listTokens,
       CallEvent.createTok (createTokenBody ⟨none, true, none⟩)] := by
  decide

lemma createTokenModel_snd (env : Env) (cfg : CreateConfig) :
    (createTokenModel env cfg).2 = CallEvent.createTok (createTokenBody cfg) :=
  rfl

/-- Claim C9 (amended): when the remote token list comes back empty and
the desired-token list is empty, the reconciler issues exactly one
bootstrap create-token call with unlimited quota and — when that creation
succeeds — re-fetches the remote token list; nothing else is called. -/
theorem bootstrap_create_and_refetch_on_success :
    ∀ (env : Env) (a : AccountInfo),
      a.tokens = some [] →
      getTokensModel (env.tokensResp 0) = [] →
      (tokenReconcile env (some a)).events =
        [CallEvent.listTokens,
         CallEvent.createTok (createTokenBody ⟨none, true, none⟩)] ++
        (if (createTokenModel env ⟨none, true, none⟩).1 then
          [CallEvent.listTokens]
        else []) := by
  intro env a ha h0
  by_cases hb : (createTokenModel env ⟨none, true, none⟩).1 = true
  · simp [tokenReconcile, ha, h0, hb, managePass, saleUploadStep,
      driftSyncPass, createTokenModel_snd]
  · simp only [Bool.not_eq_true] at hb
    simp [tokenReconcile, ha, h0, hb, managePass, saleUploadStep,
      driftSyncPass, createTokenModel_snd]

/-- An environment with an empty remote token list and a succeeding
create-token endpoint. -/
def envBootOk : Env :=
  { envBase with tokensResp := fun _ => .ok 200 ⟨true, some []⟩ }

/-- Witness for the amended C9: with a succeeding creation the trace is
list-fetch, bootstrap create, re-fetch. -/
theorem bootstrap_create_and_refetch_on_success_witness :
    (tokenReconcile envBootOk (some acctEmpty)).events =
      [CallEvent.listTokens,
       CallEvent.createTok (createTokenBody ⟨none, true, none⟩),
       CallEvent.listTokens] := by
  rw [bootstrap_create_and_refetch_on_success envBootOk acctEmpty rfl rfl]
  decide


lemma deleteTokenModel_snd (env : Env) (id : Option Int) :
    (deleteTokenModel env id).2 = CallEvent.deleteTok id :=
  rfl

/-- The calls contributed by one deletion/creation iteration. -/
def manageEvOf (_env : Env) (cfg : TokenConfig) : List CallEvent :=
  if intTruthy cfg.id ∧ cfg.is_deleted then [CallEvent.deleteTok cfg.id]
  else if ¬ intTruthy cfg.id then
    [CallEvent.createTok
      (createTokenBody ⟨cfg.name, cfg.unlimited_quota, cfg.remain_quota⟩)]
  else []

lemma manageStep_events (env : Env) (acc : ManageOut) (cfg : TokenConfig) :
    (manageStep env acc cfg).events = acc.events ++ manageEvOf env cfg := by
  simp only [manageStep, manageEvOf]
  split_ifs <;> simp [deleteTokenModel_snd, createTokenModel_snd]

lemma manageStep_no_update (env : Env) (acc : ManageOut) (cfg : TokenConfig)
    (rec : RemoteToken) :
    CallEvent.updateTok rec ∈ (manageStep env acc cfg).events →
    CallEvent.updateTok rec ∈ acc.events := by
  intro hmem
  rw [manageStep_events] at hmem
  rcases List.mem_append.mp hmem with h | h
  · exact h
  · exfalso
    unfold manageEvOf at h
    split_ifs at h <;> simp at h

lemma managePass_no_update (env : Env) (cfgs : List TokenConfig)
    (rec : RemoteToken) :
    CallEvent.updateTok rec ∉ (managePass env cfgs).events := by
  suffices h : ∀ (l : List TokenConfig) (acc : ManageOut),
      CallEvent.updateTok rec ∈ (l.foldl (manageStep env) acc).events →
      CallEvent.updateTok rec ∈ acc.events by
    intro hmem
    exact List.not_mem_nil _ (h cfgs ⟨[], []⟩ hmem)
  intro l
  induction l with
  | nil => intro acc h2; exact h2
  | cons c cs ih =>
    intro acc h2
    rw [List.foldl_cons] at h2
    exact manageStep_no_update env acc c rec (ih (manageStep env acc c) h2)

lemma driftSyncPass_shape (env : Env) (acct : Option AccountInfo)
    (tokens : List RemoteToken) (ev : CallEvent) :
    ev ∈ driftSyncPass env acct tokens →
    ∃ req, ev = CallEvent.updateKeyInfoCall req := by
  intro h
  cases acct with
  | none => simp [driftSyncPass] at h
  | some a =>
    cases ha : a.tokens with
    | none => rw [driftSyncPass, ha] at h; simp at h
    | some cfgs =>
      rw [driftSyncPass, ha] at h
      rw [List.mem_filterMap] at h
      obtain ⟨c, _, hc⟩ := h
      unfold driftEmit at hc
      split at hc
      · dsimp only at hc
        split at hc
        · exact ⟨_, (Option.some.inj hc).symm⟩
        · exact absurd hc (by simp)
      · exact absurd hc (by simp)

lemma saleUploadStep_shape (acct : Option AccountInfo)
    (tokens : List RemoteToken) (pending : List PendingSell) (ev : CallEvent) :
    ev ∈ saleUploadStep acct tokens pending →
    ∃ recs, ev = CallEvent.addKeysCall recs := by
  unfold saleUploadStep
  intro h
  split_ifs at h
  · simp at h
    exact ⟨_, h.2⟩
  · simp at h

/-- Claim C10: every list-tokens outcome that is not an HTTP-200
application-level success — a caught transport/parse error, a non-200
status, or a 200 body without the success marker — makes `getTokens`
return the empty list, indistinguishable from an account with zero
tokens; consequently whenever the first token fetch yields the empty
list the reconciler takes the bootstrap branch, issuing the
unconditional unlimited-quota create call and issuing no token-update
call at all (the supplement pass is skipped). -/
theorem listTokens_failure_bootstrap :
    (∀ (o : FetchOutcome TokensData),
      (∀ e, o = .err e → getTokensModel o = []) ∧
      (∀ s d, o = .ok s d → s ≠ 200 → getTokensModel o = []) ∧
      (∀ d, o = .ok 200 d → d.success = false → getTokensModel o = [])) ∧
    ∀ (env : Env) (acct : Option AccountInfo),
      getTokensModel (env.tokensResp 0) = [] →
      CallEvent.createTok (createTokenBody ⟨none, true, none⟩) ∈
        (tokenReconcile env acct).events ∧
      ∀ rec, CallEvent.updateTok rec ∉ (tokenReconcile env acct).events := by
  constructor
  · intro o
    refine ⟨?_, ?_, ?_⟩
    · intro e h
      rw [h]
      rfl
    · intro s d h hs
      rw [h]
      simp [getTokensModel, hs]
    · intro d h hd
      rw [h]
      simp [getTokensModel, hd]
  · intro env acct h0
    constructor
    · by_cases hb : (createTokenModel env ⟨none, true, none⟩).1 = true <;>
        simp [tokenReconcile, h0, hb, createTokenModel_snd]
    · intro rec hmem
      by_cases hb : (createTokenModel env ⟨none, true, none⟩).1 = true <;>
        simp [tokenReconcile, h0, hb, createTokenModel_snd] at hmem <;>
        rcases hmem with hm | hm | hm
      · exact managePass_no_update env _ rec hm
      · rcases saleUploadStep_shape _ _ _ _ hm with ⟨recs, h⟩
        simp at h
      · rcases driftSyncPass_shape _ _ _ _ hm with ⟨req, h⟩
        simp at h
      · exact managePass_no_update env _ rec hm
      · rcases saleUploadStep_shape _ _ _ _ hm with ⟨recs, h⟩
        simp at h
      · rcases driftSyncPass_shape _ _ _ _ hm with ⟨req, h⟩
        simp at h

/-- Witness for C10: under the erroring token-list oracle of `envBase`
the reconciler issues the bootstrap create and no update call. -/
theorem listTokens_failure_bootstrap_witness :
    CallEvent.createTok (createTokenBody ⟨none, true, none⟩) ∈
      (tokenReconcile envBase none).events ∧
    CallEvent.updateTok tokenSc ∉ (tokenReconcile envBase none).events := by
  have h := listTokens_failure_bootstrap.2 envBase none rfl
  exact ⟨h.1, h.2 tokenSc⟩

lemma jsOrInt_some_zero (x : Int) : jsOrInt (some x) 0 = x := by
  by_cases h : x = 0 <;> simp [jsOrInt, h]

lemma countP_id_le_one (ts : List RemoteToken) (i : Option Int)
    (h : (ts.map (fun t => t.id)).Nodup) :
    ts.countP (fun t => t.id == i) ≤ 1 := by
  induction ts with
  | nil => simp
  | cons t ts ih =>
    rw [List.map_cons, List.nodup_cons] at h
    rw [List.countP_cons]
    by_cases hp : (t.id == i) = true
    · have hi : t.id = i := by simpa using hp
      have h0 : ts.countP (fun t => t.id == i) = 0 := by
        rw [List.countP_eq_zero]
        intro x hx hpx
        exact h.1 (hi ▸ (by simpa using hpx) ▸ List.mem_map_of_mem (fun t => t.id) hx)
      rw [h0, if_pos hp]
    · have h1 := ih h.2
      rw [if_neg hp]
      omega

lemma map_if_of_countP_zero (p : RemoteToken → Bool)
    (f : RemoteToken → RemoteToken) (ts : List RemoteToken)
    (h : ts.countP p = 0) :
    ts.map (fun t => if p t then f t else t) = ts := by
  induction ts with
  | nil => rfl
  | cons t ts ih =>
    rw [List.countP_cons] at h
    have hp : p t = false := by
      cases hpt : p t
      · rfl
      · simp [hpt] at h
    have hts : ts.countP p = 0 := by
      rw [hp, if_neg (by simp)] at h
      omega
    simp [hp, ih hts]

lemma replaceFirst_eq_map (p : RemoteToken → Bool)
    (f : RemoteToken → RemoteToken) :
    ∀ (ts : List RemoteToken), ts.countP p ≤ 1 →
      replaceFirst p f ts = ts.map (fun t => if p t then f t else t) := by
  intro ts
  induction ts with
  | nil => intro _; rfl
  | cons t ts ih =>
    intro h
    rw [List.countP_cons] at h
    by_cases hp : p t = true
    · have h0 : ts.countP p = 0 := by
        rw [if_pos hp] at h
        omega
      rw [replaceFirst, if_pos hp]
      simp [hp, map_if_of_countP_zero p f ts h0]
    · have hp2 : p t = false := by simpa using hp
      have h1 : ts.countP p ≤ 1 := by
        rw [if_neg hp] at h
        omega
      rw [replaceFirst, if_neg hp]
      simp [hp2, ih h1]

lemma find?_unique_of_countP_le_one (p : RemoteToken → Bool) :
    ∀ (ts : List RemoteToken) (m : RemoteToken), ts.find? p = some m →
      ts.countP p ≤ 1 → ∀ x ∈ ts, p x = true → x = m := by
  intro ts
  induction ts with
  | nil => intro m hf; simp at hf
  | cons t ts ih =>
    intro m hf hc x hx hpx
    rw [List.countP_cons] at hc
    by_cases hp : p t = true
    · rw [List.find?_cons_of_pos _ hp] at hf
      have hm : t = m := Option.some.inj hf
      rcases List.mem_cons.mp hx with rfl | hx2
      · exact hm
      · have h0 : ts.countP p = 0 := by
          rw [if_pos hp] at hc
          omega
        exact absurd hpx (by simpa using List.countP_eq_zero.mp h0 x hx2)
    · rw [List.find?_cons_of_neg _ hp] at hf
      rcases List.mem_cons.mp hx with rfl | hx2
      · exact absurd hpx hp
      · have h1 : ts.countP p ≤ 1 := by
          rw [if_neg hp] at hc
          omega
        exact ih m hf h1 x hx2 hpx

lemma beq_symm_optInt (a b : Option Int) : (a == b) = (b == a) := by
  by_cases h : a = b
  · subst h; rfl
  · have h2 : ¬ b = a := fun hh => h hh.symm
    exact (beq_eq_false_iff_ne.mpr h).trans (beq_eq_false_iff_ne.mpr h2).symm

lemma supplementStep_tokens_echo (env : Env)
    (hecho : ∀ t, env.updateResp t = .ok 200 ⟨true, none, some t⟩)
    (c : TokenConfig) (acc : SupplementOut)
    (hnd : (acc.tokens.map (fun t => t.id)).Nodup) :
    (supplementStep env acc c).tokens =
      acc.tokens.map (fun t =>
        if (t.id == c.id) = true then
          { t with
            remain_quota := some (jsOrInt t.remain_quota 0 + c.supplement_quota.getD 0) }
        else t) := by
  cases hf : acc.tokens.find? (fun t => t.id == c.id) with
  | none =>
    have h0 : acc.tokens.countP (fun t => t.id == c.id) = 0 := by
      rw [List.countP_eq_zero]
      intro x hx
      simpa using List.find?_eq_none.mp hf x hx
    have hstep : (supplementStep env acc c).tokens = acc.tokens := by
      simp only [supplementStep, hf]
    rw [hstep, map_if_of_countP_zero _ _ _ h0]
  | some m =>
    have hc1 := countP_id_le_one acc.tokens c.id hnd
    have hstep : (supplementStep env acc c).tokens =
        replaceFirst (fun t => t.id == c.id)
          (fun t => { t with
            remain_quota := some (jsOrInt m.remain_quota 0 + c.supplement_quota.getD 0) })
          acc.tokens := by
      simp only [supplementStep, hf]
      simp [updateTokenModel, hecho]
    rw [hstep, replaceFirst_eq_map _ _ _ hc1]
    apply List.map_congr_left
    intro x hx
    by_cases hp : (x.id == c.id) = true
    · rw [if_pos hp, if_pos hp]
      rw [find?_unique_of_countP_le_one _ _ _ hf hc1 x hx hp]
    · rw [if_neg hp, if_neg hp]

/-- Sum of the supplement deltas of the entries of `l` whose id matches
`i`, each entry counted exactly once. -/
def idDeltaSum (l : List TokenConfig) (i : Option Int) : Int :=
  ((l.filter (fun c => c.id == i)).map (fun c => c.supplement_quota.getD 0)).sum

lemma idDeltaSum_cons (c : TokenConfig) (l : List TokenConfig) (i : Option Int) :
    idDeltaSum (c :: l) i =
      (if (c.id == i) = true then c.supplement_quota.getD 0 else 0) +
        idDeltaSum l i := by
  unfold idDeltaSum
  rw [List.filter_cons]
  by_cases h : (c.id == i) = true
  · rw [if_pos h, if_pos h]
    simp
  · rw [if_neg h, if_neg h]
    simp

lemma idDeltaSum_eq_zero_of_not_any (l : List TokenConfig) (i : Option Int)
    (h : l.any (fun c => c.id == i) = false) :
    idDeltaSum l i = 0 := by
  unfold idDeltaSum
  have h2 : l.filter (fun c => c.id == i) = [] := by
    rw [List.filter_eq_nil_iff]
    intro a ha
    simpa using (List.any_eq_false.mp h) a ha
  rw [h2]
  rfl

lemma supplementFold_tokens_echo (env : Env)
    (hecho : ∀ t, env.updateResp t = .ok 200 ⟨true, none, some t⟩) :
    ∀ (l : List TokenConfig) (acc : SupplementOut),
      (acc.tokens.map (fun t => t.id)).Nodup →
      (l.foldl (supplementStep env) acc).tokens =
        acc.tokens.map (fun t =>
          if l.any (fun c => c.id == t.id) then
            { t with
              remain_quota := some (jsOrInt t.remain_quota 0 + idDeltaSum l t.id) }
          else t) := by
  intro l
  induction l with
  | nil =>
    intro acc _
    simp
  | cons c l ih =>
    intro acc hnd
    rw [List.foldl_cons]
    have hstep := supplementStep_tokens_echo env hecho c acc hnd
    have hcomp : ((fun t : RemoteToken => t.id) ∘ (fun t =>
        if (t.id == c.id) = true then
          { t with
            remain_quota := some (jsOrInt t.remain_quota 0 + c.supplement_quota.getD 0) }
        else t)) = fun t : RemoteToken => t.id := by
      funext t
      by_cases hp : t.id = c.id <;> simp [hp]
    have hndstep : ((supplementStep env acc c).tokens.map (fun t => t.id)).Nodup := by
      rw [hstep, List.map_map, hcomp]
      exact hnd
    rw [ih (supplementStep env acc c) hndstep, hstep, List.map_map]
    apply List.map_congr_left
    intro t _
    simp only [Function.comp_apply]
    by_cases hc : (t.id == c.id) = true
    · have hcid : (c.id == t.id) = true := by rw [beq_symm_optInt]; exact hc
      by_cases hl : l.any (fun c2 => c2.id == t.id) = true
      · simp [hc, hcid, hl, jsOrInt_some_zero, idDeltaSum_cons]
        omega
      · simp only [Bool.not_eq_true] at hl
        simp [hc, hcid, hl, jsOrInt_some_zero, idDeltaSum_cons,
          idDeltaSum_eq_zero_of_not_any l t.id hl]
    · have hcid : (c.id == t.id) = false := by
        rw [beq_symm_optInt]
        simpa using hc
      simp [hc, hcid, idDeltaSum_cons]

/-- Whether some positive-supplement entry of `cfgs` matches id `i`. -/
def suppTouched (cfgs : List TokenConfig) (i : Option Int) : Bool :=
  (cfgs.filter suppEligible).any (fun c => c.id == i)

/-- The total supplement delta the pass applies to id `i`: each
positive-supplement entry matching `i` counted exactly once. -/
def suppDeltaSum (cfgs : List TokenConfig) (i : Option Int) : Int :=
  idDeltaSum (cfgs.filter suppEligible) i

/-- Claim C8: the supplement pass is idempotent within one run — when the
remote update endpoint confirms each sent record and remote ids are
distinct, every token's remaining quota grows by exactly the sum of the
matching entries' deltas, each desired entry's delta consumed exactly
once — and every entry of the final normalized token list attached to
the snapshot has its supplement field zeroed. -/
theorem supplement_idempotent_and_zeroed :
    ∀ (env : Env) (cfgs : List TokenConfig) (tokens : List RemoteToken),
      (∀ t, env.updateResp t = .ok 200 ⟨true, none, some t⟩) →
      ((tokens.map (fun t => t.id)).Nodup →
        (supplementPass env cfgs tokens).tokens =
          tokens.map (fun t =>
            if suppTouched cfgs t.id then
              { t with
                remain_quota := some (jsOrInt t.remain_quota 0 + suppDeltaSum cfgs t.id) }
            else t)) ∧
      ∀ (acct : Option AccountInfo) (nts : List NormalToken),
        (tokenReconcile env acct).tokensField = some nts →
        ∀ nt ∈ nts, nt.supplement_quota = 0 := by
  intro env cfgs tokens hecho
  constructor
  · intro hnd
    rw [supplementPass]
    exact supplementFold_tokens_echo env hecho (cfgs.filter suppEligible)
      ⟨tokens, []⟩ hnd
  · intro acct nts hnts nt hmem
    simp only [tokenReconcile] at hnts
    split at hnts <;> (try split at hnts) <;> (try split at hnts) <;>
      first
        | (have hnn := Option.some.inj hnts
           subst hnn
           rcases List.mem_map.mp hmem with ⟨x, _, hx⟩
           rw [← hx]
           rfl)
        | exact absurd hnts (by simp)

/-- An environment whose remote token list holds exactly `tokenSc`. -/
def envTok : Env :=
  { envBase with tokensResp := fun _ => .ok 200 ⟨true, some [tokenSc]⟩ }

/-- Witness for C8 at the concrete supplement scenario: the delta 50000
is applied exactly once (100000 becomes 150000, not 200000), and the
normalized token attached to the snapshot has supplement 0. -/
theorem supplement_idempotent_and_zeroed_witness :
    (supplementPass envBase [cfgSc] [tokenSc]).tokens =
      [{ tokenSc with remain_quota := some 150000 }] ∧
    (normalizeToken tokenSc).supplement_quota = 0 := by
  constructor
  · have h :=
      (supplement_idempotent_and_zeroed envBase [cfgSc] [tokenSc]
        (fun t => rfl)).1 (by decide)
    rw [h]
    decide
  · exact ((supplement_idempotent_and_zeroed envTok [] [] (fun t => rfl)).2
      none [normalizeToken tokenSc] (by decide)) (normalizeToken tokenSc)
      (by decide)
